import Mathlib

/-!
Verification of the clinical-metadata reconciliation core of the `clinica`
repository (module `clinica/iotools/converters/aibl_to_bids/utils/clinical.py`
and the study identifier translators of `clinica/iotools/bids_utils.py`).

Python scalar cells are embedded as the type `Value`: an integer cell,
a float cell holding an integral value (the only floats the claims are
about, e.g. the sentinel `-4.0` or a float-typed identifier `42.0`),
a string cell, or the missing cell (`None` / `NaN`).  Strings are embedded
as `List Char`.  Fallible Python code (functions that can raise) is
embedded with `Except`.
-/

/-- Strings of the source are embedded as lists of characters. -/
abbrev Str := List Char

/-- A Python scalar cell: integer, integral float, string, or missing
(`None`/`NaN`).  `Value.f n` stands for the float `n.0`. -/
inductive Value where
  | i : Int → Value
  | f : Int → Value
  | s : Str → Value
  | na : Value
deriving DecidableEq, Repr

/-- Python truthiness of a cell: `None`/`NaN` is falsy (`if x:` on NaN is
truthy in Python, but the code only reaches these tests with `None` after
`replace`), the empty string and zero are falsy, everything else truthy. -/
def truthyV : Value → Bool
  | .na => false
  | .s l => !l.isEmpty
  | .i n => n != 0
  | .f n => n != 0

/-- Equality test of a cell against a Python int, as Python `==`:
true for the int and the float of the same value, false for strings
and missing. -/
def valueEqIntB (v : Value) (n : Int) : Bool :=
  match v with
  | .i m => m == n
  | .f m => m == n
  | _ => false

/-- The characters of the canonical missing marker. -/
def naChars : Str := "n/a".toList

/-- The characters of the string form of the sentinel. -/
def minus4 : Str := "-4".toList

/-- Decimal digits of a nonnegative integer, most significant first. -/
def natChars (n : Nat) : Str := Nat.toDigits 10 n

/-- Python `str()` of an integer. -/
def intChars (n : Int) : Str :=
  if n < 0 then '-' :: natChars n.natAbs else natChars n.natAbs

/-- Python `str()` of a scalar: floats keep their decimal part, so the
integral float `n.0` prints as `"n.0"` (e.g. `str(42.0) == "42.0"`). -/
def pyStr : Value → Str
  | .i n => intChars n
  | .f n => intChars n ++ ".0".toList
  | .s l => l
  | .na => "nan".toList

/-- Numeric value of a list of decimal digits, most significant first. -/
def natOfDigits (l : Str) : Nat :=
  l.foldl (fun acc c => 10 * acc + (c.toNat - '0'.toNat)) 0

/- ----------------------------------------------------------------
`_map_diagnosis` (clinical.py lines 152-160): successive Python `==`
comparisons against 1, 2, 3, with a catch-all `"n/a"`.
---------------------------------------------------------------- -/

/-- `_map_diagnosis` of clinical.py: `1 → "CN"`, `2 → "MCI"`, `3 → "AD"`,
anything else (including `-4`, `0`, `None`) → `"n/a"`.  Python `==`
against an int is true for the equal int or float, hence `valueEqIntB`. -/
def map_diagnosis (diagnosis : Value) : Str :=
  if valueEqIntB diagnosis 1 then "CN".toList
  else if valueEqIntB diagnosis 2 then "MCI".toList
  else if valueEqIntB diagnosis 3 then "AD".toList
  else naChars

/- ----------------------------------------------------------------
`_load_specifications` (clinical.py lines 140-149).  The filesystem is
embedded as a partial map from paths to parsed tables; `pd.read_csv` of
an existing file returns its parsed content with no validation.
---------------------------------------------------------------- -/

/-- The path `clinical_specifications_folder / filename`. -/
def pathJoin (folder filename : Str) : Str := folder ++ '/' :: filename

/-- The message of the `FileNotFoundError` raised by `_load_specifications`. -/
def specNotFoundMessage (folder filename : Str) : Str :=
  "The specifications for ".toList ++ filename
    ++ " were not found. The should be located in ".toList
    ++ pathJoin folder filename ++ ".".toList

/-- `_load_specifications` of clinical.py: raise `FileNotFoundError` with a
message naming the attempted path when the file is absent, otherwise return
the parsed table unvalidated.  `fs` embeds the filesystem as a partial map
from paths to parsed tables. -/
def load_specifications {α : Type} (fs : Str → Option α) (folder filename : Str) :
    Except Str α :=
  match fs (pathJoin folder filename) with
  | some t => .ok t
  | none => .error (specNotFoundMessage folder filename)

/-- C9: loading a specification file errors iff the file is absent at the
expected path, the error message contains the attempted path, and when the
file exists its parsed table is returned with no further validation. -/
theorem c9_load_specifications_spec {α : Type} (fs : Str → Option α)
    (folder filename : Str) :
    ((∃ m, load_specifications fs folder filename = .error m) ↔
      fs (pathJoin folder filename) = none)
    ∧ (∀ t, fs (pathJoin folder filename) = some t →
        load_specifications fs folder filename = .ok t)
    ∧ (fs (pathJoin folder filename) = none →
        load_specifications fs folder filename =
          .error (specNotFoundMessage folder filename)
        ∧ pathJoin folder filename <:+: specNotFoundMessage folder filename) := by
  refine ⟨⟨fun ⟨m, hm⟩ => ?_, fun h => ?_⟩, fun t ht => ?_, fun h => ⟨?_, ?_⟩⟩
  · unfold load_specifications at hm
    cases h : fs (pathJoin folder filename) with
    | some t => rw [h] at hm; exact absurd hm (by simp)
    | none => rfl
  · exact ⟨_, by unfold load_specifications; rw [h]⟩
  · unfold load_specifications; rw [ht]
  · unfold load_specifications; rw [h]
  · exact ⟨"The specifications for ".toList ++ filename
      ++ " were not found. The should be located in ".toList, ".".toList, by
        simp [specNotFoundMessage, List.append_assoc]⟩

/-- C9 witness: a concrete filesystem where the file is absent, and one
where it is present. -/
theorem c9_witness :
    load_specifications (fun _ => (none : Option Nat)) "dir".toList "bar.tsv".toList =
      .error (specNotFoundMessage "dir".toList "bar.tsv".toList)
    ∧ load_specifications (fun p => if p = pathJoin "dir".toList "foo.tsv".toList
        then some 7 else none) "dir".toList "foo.tsv".toList = .ok 7 := by
  constructor
  · exact ((c9_load_specifications_spec (fun _ => (none : Option Nat))
      "dir".toList "bar.tsv".toList).2.2 rfl).1
  · exact (c9_load_specifications_spec
      (fun p => if p = pathJoin "dir".toList "foo.tsv".toList then some 7 else none)
      "dir".toList "foo.tsv".toList).2.1 7 (by simp)

/-- C6: the diagnosis mapping is total and exact: `1 → "CN"`, `2 → "MCI"`,
`3 → "AD"`, and every other value (including the sentinel `-4`, `0` and the
missing value) maps to `"n/a"`.  Totality (the mapping never raises) is
expressed by `map_diagnosis` being a total function into `Str`. -/
theorem c6_map_diagnosis_spec :
    map_diagnosis (.i 1) = "CN".toList
    ∧ map_diagnosis (.i 2) = "MCI".toList
    ∧ map_diagnosis (.i 3) = "AD".toList
    ∧ map_diagnosis (.i (-4)) = naChars
    ∧ map_diagnosis (.i 0) = naChars
    ∧ map_diagnosis .na = naChars
    ∧ (∀ v : Value, valueEqIntB v 1 = false → valueEqIntB v 2 = false →
        valueEqIntB v 3 = false → map_diagnosis v = naChars) := by
  refine ⟨rfl, rfl, rfl, rfl, rfl, rfl, fun v h1 h2 h3 => ?_⟩
  unfold map_diagnosis
  rw [h1, h2, h3]
  rfl

/-- C6 witness: the catch-all branch applied at the concrete value `5`. -/
theorem c6_witness : map_diagnosis (.i 5) = naChars :=
  c6_map_diagnosis_spec.2.2.2.2.2.2 (.i 5) (by decide) (by decide) (by decide)

/- ----------------------------------------------------------------
Participant field extraction (clinical.py lines 93-112): for the
`alternative_id_1` field read from a column of dtype `np.int64` or
`np.float64`, a present value is coerced with Python `str(...)` and a
missing value becomes `"n/a"`; every other field passes through raw.
---------------------------------------------------------------- -/

/-- The per-cell coercion of the participant extraction loop of
`create_participants_tsv_file`: `is_alt_id` states that the BIDS field is
`alternative_id_1` and `numericDtype` that the source column dtype is
`np.float64` or `np.int64`; a present cell is coerced with `str(...)`
(so a float keeps its `.0`), a missing cell becomes `"n/a"`, and in every
other case the raw cell passes through. -/
def extract_participant_value ( is_alt_id : Bool) (numericDtype : Bool)
    (v : Value) : Value :=
  if is_alt_id && numericDtype then
    if v = Value.na then Value.s naChars else Value.s (pyStr v)
  else v

/-- The elementwise effect of `participant_df.replace(-4, "n/a")`
(clinical.py line 126): only cells equal to the numeric `-4` (int or
float) become `"n/a"`; a string cell `"-4"` is not equal to the number
`-4` and passes through. -/
def participants_replace_value (v : Value) : Value :=
  if valueEqIntB v (-4) then .s naChars else v

/-- The value a generic (non-special) participants column cell holds in the
emitted `participants.tsv`: the extraction coercion followed by the
`replace(-4, "n/a")` normalization. -/
def emitted_participant_value ( is_alt_id : Bool) (numericDtype : Bool)
    (v : Value) : Value :=
  participants_replace_value (extract_participant_value is_alt_id numericDtype v)

/-- C5 counterexample: a float64 identifier cell `42.0` is emitted as the
string `"42.0"`, not `"42"` — the decimal-zero artifact is not stripped
(the `rstrip` variant is commented out in the source). -/
theorem c5_counterexample :
    extract_participant_value true true (.f 42) = .s "42.0".toList
    ∧ Value.s "42.0".toList ≠ Value.s "42".toList := by
  constructor
  · rfl
  · decide

/-- C5 amended: in participant extraction, a present numeric identifier
value is coerced with Python `str(...)` — an int-typed value yields its
plain digit string but a float-typed value keeps the `.0` artifact
(`42.0` becomes `"42.0"`); a missing identifier value becomes `"n/a"`;
and any field that is not the identifier field read from a numeric
column passes through un-coerced. -/
theorem c5_extract_amended :
    (∀ n : Int, extract_participant_value true true (.i n) = .s (intChars n))
    ∧ (∀ n : Int, extract_participant_value true true (.f n) =
        .s (intChars n ++ ".0".toList))
    ∧ extract_participant_value true true .na = .s naChars
    ∧ (∀ (b₁ b₂ : Bool) (v : Value), (b₁ && b₂) = false →
        extract_participant_value b₁ b₂ v = v) := by
  refine ⟨fun n => rfl, fun n => rfl, rfl, fun b₁ b₂ v h => ?_⟩
  unfold extract_participant_value
  rw [h]
  rfl

/-- C5 witness: the pass-through branch at a concrete string cell in a
non-identifier column. -/
theorem c5_witness :
    extract_participant_value false true (.s "AD".toList) = .s "AD".toList :=
  c5_extract_amended.2.2.2 false true (.s "AD".toList) (by decide)

/- ----------------------------------------------------------------
Fallback exam-date resolution (clinical.py lines 289-333).  A candidate
CSV file is a list of rows with an `RID`, a `VISCODE` and an `EXAMDATE`
cell; the clinical data directory is embedded as one optional table per
candidate glob pattern, in the fixed order of the source.
---------------------------------------------------------------- -/

/-- Modelled from the spec: `viscode_to_session` of
`clinica.iotools.converter_utils` is not under src; per the spec it is the
deterministic pure map sending the baseline code to `ses-M000`, a month
code `mNN` to `ses-M0NN`, and yielding no session id for unmapped codes. -/
def viscode_to_session (viscode : Str) : Option Str :=
  match viscode with
  | ['b', 'l'] => some "ses-M000".toList
  | 'm' :: rest =>
      if rest.all Char.isDigit && !rest.isEmpty
      then some ("ses-M0".toList ++ rest)
      else none
  | _ => none

/-- One row of a candidate clinical CSV file. -/
structure CsvRow where
  rid : Int
  viscode : Str
  examdate : Value
deriving DecidableEq, Repr

/-- The clinical data directory as seen by the fallback resolver: for each
candidate glob pattern, the first matching file's parsed table, or `none`
when no file matches the pattern. -/
structure AltFS where
  mri3meta : Option (List CsvRow)
  mrimeta : Option (List CsvRow)
  cdr : Option (List CsvRow)
  flutemeta : Option (List CsvRow)
  mmse : Option (List CsvRow)
  pibmeta : Option (List CsvRow)
deriving DecidableEq, Repr

/-- `_get_csv_files_for_alternative_exam_date`: the candidate tables in the
fixed source order (mri3meta, mrimeta, cdr, flutemeta, mmse, pibmeta),
silently skipping the patterns with no existing file. -/
def get_csv_files_for_alternative_exam_date (fs : AltFS) : List (List CsvRow) :=
  [fs.mri3meta, fs.mrimeta, fs.cdr, fs.flutemeta, fs.mmse, fs.pibmeta].filterMap id

/-- The rows of a candidate table matching the subject and the session
(`csv_data.RID == rid` and derived `SESSION == session_id`). -/
def matchingRows (rid : Int) (session_id : Str) (t : List CsvRow) : List CsvRow :=
  t.filter (fun r => decide (r.rid = rid ∧ viscode_to_session r.viscode = some session_id))

/-- The `EXAMDATE` of the first matching row of a candidate table, when a
matching row exists (`exam_date.iloc[0].EXAMDATE`). -/
def firstMatchExam (rid : Int) (session_id : Str) (t : List CsvRow) : Option Value :=
  (matchingRows rid session_id t).head?.map CsvRow.examdate

/-- The loop body of `_find_exam_date_in_other_csv_files` over the list of
present candidate tables: take the first table with a matching row whose
first match's `EXAMDATE != "-4"` — a Python comparison against the string
`"-4"` only, so a numeric `-4` passes the test. -/
def findExamDateLoop (rid : Int) (session_id : Str) :
    List (List CsvRow) → Option Value
  | [] => none
  | t :: rest =>
      match firstMatchExam rid session_id t with
      | some d => if d = Value.s minus4 then findExamDateLoop rid session_id rest
                  else some d
      | none => findExamDateLoop rid session_id rest

/-- `_find_exam_date_in_other_csv_files` of clinical.py. -/
def find_exam_date_in_other_csv_files (rid : Int) (session_id : Str)
    (fs : AltFS) : Option Value :=
  findExamDateLoop rid session_id (get_csv_files_for_alternative_exam_date fs)

/-- The clinical data directory with no candidate file present. -/
def emptyAltFS : AltFS := ⟨none, none, none, none, none, none⟩

/-- C3 counterexample: a candidate file whose first matching row carries the
numeric sentinel `-4` makes the resolver return the sentinel itself — the
source only tests `EXAMDATE != "-4"` against the string form, so the claim
that the resolver never returns the sentinel (numeric or string) is false. -/
theorem c3_counterexample :
    find_exam_date_in_other_csv_files 109 "ses-M000".toList
      { emptyAltFS with mri3meta := some [⟨109, "bl".toList, .i (-4)⟩] }
      = some (.i (-4)) := by
  decide

/-- C3 amended: the resolver probes the fixed ordered candidate list,
silently skipping absent files; for each present file it looks only at the
first row matching the subject and session and returns its exam date
provided that date is not the string `"-4"` (a numeric `-4` is not filtered
out and is returned); when the first match of a file is the string
sentinel the search moves on to the next candidate file; it returns no
value when every candidate file is absent, or no present file has a
matching row, or every present file's first match is the string sentinel. -/
theorem c3_find_exam_date_amended :
    (∀ (rid : Int) (sid : Str),
      find_exam_date_in_other_csv_files rid sid emptyAltFS = none)
    ∧ (∀ (rid : Int) (sid : Str) (fs : AltFS) (d : Value),
        find_exam_date_in_other_csv_files rid sid fs = some d →
        d ≠ Value.s minus4)
    ∧ (∀ (rid : Int) (sid : Str) (fs : AltFS),
        (∀ t ∈ get_csv_files_for_alternative_exam_date fs,
          firstMatchExam rid sid t = none ∨
          firstMatchExam rid sid t = some (Value.s minus4)) →
        find_exam_date_in_other_csv_files rid sid fs = none)
    ∧ (∀ (rid : Int) (sid : Str) (fs : AltFS) (t : List CsvRow)
        (rest : List (List CsvRow)) (d : Value),
        get_csv_files_for_alternative_exam_date fs = t :: rest →
        firstMatchExam rid sid t = some d → d ≠ Value.s minus4 →
        find_exam_date_in_other_csv_files rid sid fs = some d) := by
  have hloop_ne : ∀ (rid : Int) (sid : Str) (l : List (List CsvRow)) (d : Value),
      findExamDateLoop rid sid l = some d → d ≠ Value.s minus4 := by
    intro rid sid l
    induction l with
    | nil => intro d h; exact absurd h (by simp [findExamDateLoop])
    | cons t rest ih =>
      intro d h
      unfold findExamDateLoop at h
      cases hm : firstMatchExam rid sid t with
      | none => rw [hm] at h; exact ih d h
      | some e =>
        rw [hm] at h
        have h' : (if e = Value.s minus4 then findExamDateLoop rid sid rest
            else some e) = some d := h
        by_cases he : e = Value.s minus4
        · rw [if_pos he] at h'; exact ih d h'
        · rw [if_neg he] at h'
          cases h'
          exact he
  have hloop_none : ∀ (rid : Int) (sid : Str) (l : List (List CsvRow)),
      (∀ t ∈ l, firstMatchExam rid sid t = none ∨
        firstMatchExam rid sid t = some (Value.s minus4)) →
      findExamDateLoop rid sid l = none := by
    intro rid sid l
    induction l with
    | nil => intro _; rfl
    | cons t rest ih =>
      intro h
      unfold findExamDateLoop
      rcases h t (by simp) with hm | hm
      · rw [hm]; exact ih (fun u hu => h u (by simp [hu]))
      · rw [hm]
        show (if Value.s minus4 = Value.s minus4 then findExamDateLoop rid sid rest
          else some (Value.s minus4)) = none
        rw [if_pos rfl]
        exact ih (fun u hu => h u (by simp [hu]))
  refine ⟨fun rid sid => rfl, ?_, ?_, ?_⟩
  · intro rid sid fs d h
    exact hloop_ne rid sid _ d h
  · intro rid sid fs h
    exact hloop_none rid sid _ h
  · intro rid sid fs t rest d hfs hm hd
    unfold find_exam_date_in_other_csv_files
    rw [hfs]
    unfold findExamDateLoop
    rw [hm]
    show (if d = Value.s minus4 then findExamDateLoop rid sid rest
      else some d) = some d
    rw [if_neg hd]

/-- C3 witness: the first-file-priority branch of the amended theorem at a
concrete directory where the first present candidate file has a
non-sentinel matching date. -/
theorem c3_witness :
    find_exam_date_in_other_csv_files 109 "ses-M000".toList
      { emptyAltFS with cdr := some [⟨109, "bl".toList, .s "01/01/2109".toList⟩] }
      = some (.s "01/01/2109".toList) :=
  c3_find_exam_date_amended.2.2.2 109 "ses-M000".toList
    { emptyAltFS with cdr := some [⟨109, "bl".toList, .s "01/01/2109".toList⟩] }
    [⟨109, "bl".toList, .s "01/01/2109".toList⟩] [] (.s "01/01/2109".toList)
    (by decide) (by decide) (by decide)

/- ----------------------------------------------------------------
`_complete_examination_dates` (clinical.py lines 289-299): Python
truthiness tests on `examination_date` and `session_id`.
---------------------------------------------------------------- -/

/-- Python truthiness of an `Optional[str]`: `None` and the empty string
are falsy. -/
def truthyOptStr : Option Str → Bool
  | some l => !l.isEmpty
  | none => false

/-- `_complete_examination_dates` of clinical.py: return the primary exam
date when truthy; otherwise when the session id is truthy return the result
of the fallback search (embedding Python `None` results as `Value.na`);
otherwise return the missing value. -/
def complete_examination_dates (rid : Int) (fs : AltFS)
    (session_id : Option Str) (examination_date : Value) : Value :=
  if truthyV examination_date then examination_date
  else if truthyOptStr session_id then
    match find_exam_date_in_other_csv_files rid (session_id.getD []) fs with
    | some v => v
    | none => .na
  else .na

/-- C8: exam-date completion returns the primary exam date unchanged
whenever it is present (truthy); when it is absent and a session id is
present, it returns the fallback-resolver result for that subject and
session (its date when the search succeeds, missing when it fails); and
when both are absent, the result is the missing value — no fallback is
attempted. -/
theorem c8_complete_examination_dates_spec :
    (∀ (rid : Int) (fs : AltFS) (sid : Option Str) (v : Value),
      truthyV v = true → complete_examination_dates rid fs sid v = v)
    ∧ (∀ (rid : Int) (fs : AltFS) (l : Str) (v : Value) (d : Value),
        truthyV v = false → l ≠ [] →
        find_exam_date_in_other_csv_files rid l fs = some d →
        complete_examination_dates rid fs (some l) v = d)
    ∧ (∀ (rid : Int) (fs : AltFS) (l : Str) (v : Value),
        truthyV v = false → l ≠ [] →
        find_exam_date_in_other_csv_files rid l fs = none →
        complete_examination_dates rid fs (some l) v = .na)
    ∧ (∀ (rid : Int) (fs : AltFS) (sid : Option Str) (v : Value),
        truthyV v = false → truthyOptStr sid = false →
        complete_examination_dates rid fs sid v = .na) := by
  refine ⟨fun rid fs sid v hv => ?_, fun rid fs l v d hv hl hf => ?_,
    fun rid fs l v hv hl hf => ?_, fun rid fs sid v hv hs => ?_⟩
  · unfold complete_examination_dates
    rw [hv]
    rfl
  · unfold complete_examination_dates
    rw [hv]
    have hs : truthyOptStr (some l) = true := by
      simp [truthyOptStr, List.isEmpty_iff, hl]
    rw [if_neg (by simp), if_pos hs]
    simp only [Option.getD_some, hf]
  · unfold complete_examination_dates
    rw [hv]
    have hs : truthyOptStr (some l) = true := by
      simp [truthyOptStr, List.isEmpty_iff, hl]
    rw [if_neg (by simp), if_pos hs]
    simp only [Option.getD_some, hf]
  · unfold complete_examination_dates
    rw [hv, hs]
    rfl

/-- C8 witness: the source's own calibration cases — a truthy primary date
is returned unchanged; a missing date with a session id whose fallback
search succeeds returns the found date; a missing date and missing session
id return the missing value. -/
theorem c8_witness :
    complete_examination_dates 0 emptyAltFS (some "foo".toList)
      (.s "01/01/2000".toList) = .s "01/01/2000".toList
    ∧ complete_examination_dates 109
        { emptyAltFS with mri3meta := some [⟨109, "bl".toList, .s "01/01/2109".toList⟩] }
        (some "ses-M000".toList) .na = .s "01/01/2109".toList
    ∧ complete_examination_dates 0 emptyAltFS none .na = .na :=
  ⟨c8_complete_examination_dates_spec.1 0 emptyAltFS (some "foo".toList)
      (.s "01/01/2000".toList) (by decide),
   c8_complete_examination_dates_spec.2.1 109
      { emptyAltFS with mri3meta := some [⟨109, "bl".toList, .s "01/01/2109".toList⟩] }
      "ses-M000".toList .na (.s "01/01/2109".toList) (by decide) (by decide) (by decide),
   c8_complete_examination_dates_spec.2.2.2 0 emptyAltFS none .na (by decide) (by decide)⟩

/- ----------------------------------------------------------------
Age derivation (clinical.py lines 179-204).  `datetime.strptime` with
formats `"/%Y"` and `"%m/%d/%Y"` is embedded by parsers returning the
year; a parse failure is the `ValueError`/`TypeError` the source raises,
embedded as `Except.error`.
---------------------------------------------------------------- -/

/-- Every character is a decimal digit. -/
def allDigits (l : Str) : Bool := l.all Char.isDigit

/-- The Gregorian leap-year rule, as `datetime` uses for February 29. -/
def isLeapYear (y : Nat) : Bool :=
  y % 4 == 0 && (y % 100 != 0 || y % 400 == 0)

/-- The number of days of a month in a year, as `datetime` validates
`%d` (February has 29 days in a leap year). -/
def daysInMonth (m y : Nat) : Nat :=
  if m = 2 then (if isLeapYear y then 29 else 28)
  else if m = 4 ∨ m = 6 ∨ m = 9 ∨ m = 11 then 30
  else 31

/-- `datetime.strptime(birth_date, "/%Y").year`: a slash followed by
exactly four digits (CPython matches `%Y` against four digits), whose
value is at least `datetime.MINYEAR = 1`. -/
def parseYearOnly (l : Str) : Option Int :=
  match l with
  | '/' :: ds =>
      if allDigits ds && decide (ds.length = 4) && decide (1 ≤ natOfDigits ds)
      then some (natOfDigits ds : Nat) else none
  | _ => none

/-- `datetime.strptime(exam_date, "%m/%d/%Y").year`: month (1-2 digits,
1..12), day (1-2 digits, at least 1 and at most the length of that month
in that year) and year (exactly four digits, at least 1),
slash-separated. -/
def parseExamYear (l : Str) : Option Int :=
  match l.splitOn '/' with
  | [mm, dd, yyyy] =>
      if allDigits mm && !mm.isEmpty && decide (mm.length ≤ 2)
          && decide (1 ≤ natOfDigits mm) && decide (natOfDigits mm ≤ 12)
          && allDigits dd && !dd.isEmpty && decide (dd.length ≤ 2)
          && decide (1 ≤ natOfDigits dd)
          && decide (natOfDigits dd ≤ daysInMonth (natOfDigits mm) (natOfDigits yyyy))
          && allDigits yyyy && decide (yyyy.length = 4)
          && decide (1 ≤ natOfDigits yyyy)
      then some (natOfDigits yyyy : Nat) else none
  | _ => none

/-- `_compute_age_at_exam` of clinical.py: when both dates are truthy,
parse them and return exam year minus birth year (pure year subtraction);
when either is falsy return `None`; a truthy value that `strptime` cannot
parse (malformed string, or a non-string) raises, embedded as `error`. -/
def compute_age_at_exam (birth_date exam_date : Value) : Except Unit Value :=
  if truthyV birth_date && truthyV exam_date then
    match birth_date, exam_date with
    | .s b, .s e =>
        match parseYearOnly b, parseExamYear e with
        | some y1, some y2 => .ok (.i (y2 - y1))
        | _, _ => .error ()
    | _, _ => .error ()
  else .ok .na

/-- Pandas `Series.ffill` on a column of cells: each missing cell takes the
closest preceding non-missing value; leading missing cells stay missing
(`last` starts as the missing value). -/
def ffillValues (last : Value) : List Value → List Value
  | [] => []
  | v :: rest =>
      let v' := if v = Value.na then last else v
      v' :: ffillValues v' rest

/-- The row-wise `df.apply(lambda x: _compute_age_at_exam(...), axis=1)`
over the (forward-filled) birth column zipped with the exam column; the
first raising row aborts the whole application. -/
def compute_ages : List (Value × Value) → Except Unit (List Value)
  | [] => .ok []
  | p :: rest =>
      match compute_age_at_exam p.1 p.2, compute_ages rest with
      | .ok a, .ok as0 => .ok (a :: as0)
      | .error e, _ => .error e
      | .ok _, .error e => .error e

/- ----------------------------------------------------------------
The per-subject sessions table (create_sessions_tsv_file, clinical.py
lines 207-286), embedded at row level after the per-specification
`pd.concat`: each row holds the `session_id` cell, the cells of the
columns the later steps inspect by name (`examination_date`,
`date_of_birth`, `diagnosis`) and the cells of the remaining columns.
---------------------------------------------------------------- -/

/-- A row of the merged sessions dataframe before normalization. -/
structure MRow where
  session_id : Option Str
  examination_date : Value
  date_of_birth : Value
  diagnosis : Value
  other : List Value
deriving DecidableEq, Repr

/-- A row after `_set_age_from_birth`: the `date_of_birth` column is gone
and an `age` column exists. -/
structure ARow where
  session_id : Option Str
  examination_date : Value
  age : Value
  diagnosis : Value
  other : List Value
deriving DecidableEq, Repr

/-- The row of the output dataframe built from an input row and its age. -/
def mkARow (r : MRow) (age : Value) : ARow :=
  ⟨r.session_id, r.examination_date, age, r.diagnosis, r.other⟩

/-- `_set_age_from_birth` of clinical.py on a table that has both the
`date_of_birth` and `examination_date` columns (the source raises a
`ValueError` before doing anything when either column is absent; here
their presence is part of the row type).  When the non-missing birth
values are pairwise equal up to one distinct value, the birth column is
forward-filled and the age computed row-wise; otherwise every age is
`None`.  The birth column is dropped, which is why the result rows are
`ARow`s. -/
def set_age_from_birth (rows : List MRow) : Except Unit (List ARow) :=
  if (((rows.map (fun r => r.date_of_birth)).filter
      (fun v => decide (v ≠ Value.na))).dedup.length ≤ 1) then
    match compute_ages (List.zip
        (ffillValues Value.na (rows.map (fun r => r.date_of_birth)))
        (rows.map (fun r => r.examination_date))) with
    | .ok ages => .ok (List.zipWith mkARow rows ages)
    | .error e => .error e
  else .ok (rows.map (fun r => mkARow r Value.na))

/-- Helper: a successful row-wise age application relates input pairs to
output ages pointwise. -/
theorem compute_ages_ok_forall₂ : ∀ {pairs : List (Value × Value)}
    {ages : List Value}, compute_ages pairs = .ok ages →
    List.Forall₂ (fun p a => compute_age_at_exam p.1 p.2 = .ok a) pairs ages := by
  intro pairs
  induction pairs with
  | nil =>
    intro ages h
    have h' : (Except.ok [] : Except Unit (List Value)) = .ok ages := h
    cases h'
    exact List.Forall₂.nil
  | cons p rest ih =>
    intro ages h
    unfold compute_ages at h
    cases h1 : compute_age_at_exam p.1 p.2 with
    | error e =>
      rw [h1] at h
      have h' : (Except.error e : Except Unit (List Value)) = .ok ages := h
      exact absurd h' (by simp)
    | ok a =>
      rw [h1] at h
      cases h2 : compute_ages rest with
      | error e =>
        rw [h2] at h
        have h' : (Except.error e : Except Unit (List Value)) = .ok ages := h
        exact absurd h' (by simp)
      | ok as0 =>
        rw [h2] at h
        have h' : (Except.ok (a :: as0) : Except Unit (List Value)) = .ok ages := h
        cases h'
        exact List.Forall₂.cons h1 (ih h2)

/-- Helper: a successful row-wise age application preserves length. -/
theorem compute_ages_ok_length {pairs : List (Value × Value)}
    {ages : List Value} (h : compute_ages pairs = .ok ages) :
    ages.length = pairs.length :=
  (compute_ages_ok_forall₂ h).length_eq.symm

/-- Helper: forward filling preserves the column length. -/
theorem ffillValues_length : ∀ (last : Value) (l : List Value),
    (ffillValues last l).length = l.length := by
  intro last l
  induction l generalizing last with
  | nil => rfl
  | cons v rest ih => simp [ffillValues, ih]

/-- Helper: building the output rows preserves every column but the two
age-related ones, pointwise. -/
theorem zipWith_mkARow_forall₂ : ∀ (rows : List MRow) (ages : List Value),
    ages.length = rows.length →
    List.Forall₂ (fun r r' => r'.session_id = r.session_id
      ∧ r'.examination_date = r.examination_date
      ∧ r'.diagnosis = r.diagnosis ∧ r'.other = r.other)
      rows (List.zipWith mkARow rows ages) := by
  intro rows
  induction rows with
  | nil => intro ages _; exact List.Forall₂.nil
  | cons r rest ih =>
    intro ages h
    cases ages with
    | nil => exact absurd h (by simp)
    | cons a as0 =>
      exact List.Forall₂.cons ⟨rfl, rfl, rfl, rfl⟩ (ih as0 (by simpa using h))

/-- Helper: the age column of the built output rows is the computed list. -/
theorem zipWith_mkARow_map_age : ∀ (rows : List MRow) (ages : List Value),
    ages.length = rows.length →
    (List.zipWith mkARow rows ages).map ARow.age = ages := by
  intro rows
  induction rows with
  | nil =>
    intro ages h
    have : ages = [] := List.length_eq_zero.mp (by simpa using h)
    simp [this]
  | cons r rest ih =>
    intro ages h
    cases ages with
    | nil => exact absurd h (by simp)
    | cons a as0 => simp [mkARow, ih as0 (by simpa using h)]

/-- Helper: `_set_age_from_birth`, when it returns, preserves every column
other than `date_of_birth` (removed) and `age` (added), pointwise. -/
theorem set_age_from_birth_preserves {rows : List MRow} {out : List ARow}
    (h : set_age_from_birth rows = .ok out) :
    List.Forall₂ (fun r r' => r'.session_id = r.session_id
      ∧ r'.examination_date = r.examination_date
      ∧ r'.diagnosis = r.diagnosis ∧ r'.other = r.other) rows out := by
  unfold set_age_from_birth at h
  by_cases hc : (((rows.map (fun r => r.date_of_birth)).filter
      (fun v => decide (v ≠ Value.na))).dedup.length ≤ 1)
  · rw [if_pos hc] at h
    cases h2 : compute_ages (List.zip
        (ffillValues Value.na (rows.map (fun r => r.date_of_birth)))
        (rows.map (fun r => r.examination_date))) with
    | error e =>
      rw [h2] at h
      have h' : (Except.error e : Except Unit (List ARow)) = .ok out := h
      exact absurd h' (by simp)
    | ok ages =>
      rw [h2] at h
      have h' : (Except.ok (List.zipWith mkARow rows ages) :
          Except Unit (List ARow)) = .ok out := h
      cases h'
      have hlen : ages.length = rows.length := by
        rw [compute_ages_ok_length h2, List.length_zip, ffillValues_length,
          List.length_map, List.length_map, Nat.min_self]
      exact zipWith_mkARow_forall₂ rows ages hlen
  · rw [if_neg hc] at h
    have h' : (Except.ok (rows.map (fun r => mkARow r Value.na)) :
        Except Unit (List ARow)) = .ok out := h
    cases h'
    rw [List.forall₂_map_right_iff]
    exact List.forall₂_same.mpr (fun r _ => ⟨rfl, rfl, rfl, rfl⟩)

/-- A one-row table whose truthy birth and exam dates are not parseable
dates: `_set_age_from_birth` raises from `strptime` on it. -/
def c10rows : List MRow := [⟨none, .s "bar".toList, .s "foo".toList, .na, []⟩]

/-- C10 counterexample: on a dataframe that does contain both the
`date_of_birth` and `examination_date` columns but whose values are not
parseable dates, the age-derivation step raises (a `strptime`
`ValueError`) instead of returning a dataframe, so the claim quantified
over every such dataframe is false. -/
theorem c10_counterexample : set_age_from_birth c10rows = .error () := rfl

/-- C10 amended: for every input dataframe containing both the
`date_of_birth` and `examination_date` columns on which the age-derivation
step returns (rather than raising on an unparseable truthy date), the
result drops the `date_of_birth` column and adds an `age` column (the
result rows have type `ARow`), and every other column — `session_id`,
`examination_date`, `diagnosis` and the remaining cells — is unchanged
row by row. -/
theorem c10_set_age_frame_amended (rows : List MRow) (out : List ARow)
    (h : set_age_from_birth rows = .ok out) :
    List.Forall₂ (fun r r' => r'.session_id = r.session_id
      ∧ r'.examination_date = r.examination_date
      ∧ r'.diagnosis = r.diagnosis ∧ r'.other = r.other) rows out :=
  set_age_from_birth_preserves h

/-- A concrete two-row sessions table with a unanimous birth year. -/
def w10rows : List MRow :=
  [⟨some "ses-M000".toList, .s "01/01/2024".toList, .s "/2000".toList, .i 2, [.i 7]⟩,
   ⟨some "ses-M006".toList, .s "01/01/2026".toList, .na, .i 3, [.s "x".toList]⟩]

/-- The output of `_set_age_from_birth` on `w10rows`. -/
def w10out : List ARow :=
  [⟨some "ses-M000".toList, .s "01/01/2024".toList, .i 24, .i 2, [.i 7]⟩,
   ⟨some "ses-M006".toList, .s "01/01/2026".toList, .i 26, .i 3, [.s "x".toList]⟩]

/-- C10 witness: the frame property at the concrete table `w10rows`. -/
theorem c10_witness :
    List.Forall₂ (fun r r' => r'.session_id = r.session_id
      ∧ r'.examination_date = r.examination_date
      ∧ r'.diagnosis = r.diagnosis ∧ r'.other = r.other) w10rows w10out :=
  c10_set_age_frame_amended w10rows w10out (by rfl)

/-- The claim C4 counterexample table: two rows of one subject, the first
with birth `"/2000"`, the second with a blank birth cell. -/
def c4rows : List MRow :=
  [⟨some "ses-M000".toList, .s "01/01/2024".toList, .s "/2000".toList, .na, []⟩,
   ⟨some "ses-M006".toList, .s "01/01/2026".toList, .na, .na, []⟩]

/-- C4 counterexample: the non-missing birth values of `c4rows` are
unanimous and the second row's own birth cell is missing, yet the second
row's age is computed (26, from the forward-filled birth), not the missing
marker — refuting "age missing when birth date is missing". -/
theorem c4_counterexample :
    ((c4rows.map (fun r => r.date_of_birth)).filter
        (fun v => decide (v ≠ Value.na))).dedup = [.s "/2000".toList]
    ∧ (c4rows.map (fun r => r.date_of_birth)) =
        [.s "/2000".toList, Value.na]
    ∧ (set_age_from_birth c4rows).map (fun l => l.map ARow.age) =
        .ok [.i 24, .i 26] := by
  refine ⟨by decide, by decide, ?_⟩
  rfl

/-- C4 amended: when the subject's non-missing birth values are unanimous,
the birth column is forward-filled and each row's age is the result of the
age computation on its forward-filled birth and its exam date — so a row
whose own birth cell is blank but which follows a filled row gets an age;
the age computation yields the missing value when either input is falsy
(missing), and exam year minus birth year (pure year subtraction) when
both parse; when the subject has two or more distinct birth values, age is
missing for every row. -/
theorem c4_age_derivation_amended :
    (∀ (rows : List MRow) (out : List ARow),
      set_age_from_birth rows = .ok out →
      2 ≤ (((rows.map (fun r => r.date_of_birth)).filter
        (fun v => decide (v ≠ Value.na))).dedup.length) →
      ∀ r' ∈ out, r'.age = Value.na)
    ∧ (∀ (rows : List MRow) (out : List ARow),
      set_age_from_birth rows = .ok out →
      (((rows.map (fun r => r.date_of_birth)).filter
        (fun v => decide (v ≠ Value.na))).dedup.length ≤ 1) →
      List.Forall₂ (fun (p : Value × Value) (r' : ARow) =>
          compute_age_at_exam p.1 p.2 = .ok r'.age)
        (List.zip (ffillValues Value.na (rows.map (fun r => r.date_of_birth)))
          (rows.map (fun r => r.examination_date))) out)
    ∧ (∀ b e : Value, truthyV b = false ∨ truthyV e = false →
        compute_age_at_exam b e = .ok Value.na)
    ∧ (∀ (bs es : Str) (y1 y2 : Int), parseYearOnly bs = some y1 →
        parseExamYear es = some y2 →
        compute_age_at_exam (.s bs) (.s es) = .ok (.i (y2 - y1))) := by
  refine ⟨?_, ?_, ?_, ?_⟩
  · intro rows out h hlen r' hr
    unfold set_age_from_birth at h
    rw [if_neg (by omega)] at h
    have h' : (Except.ok (rows.map (fun r => mkARow r Value.na)) :
        Except Unit (List ARow)) = .ok out := h
    cases h'
    rw [List.mem_map] at hr
    obtain ⟨r, _, rfl⟩ := hr
    rfl
  · intro rows out h hlen
    unfold set_age_from_birth at h
    rw [if_pos hlen] at h
    cases h2 : compute_ages (List.zip
        (ffillValues Value.na (rows.map (fun r => r.date_of_birth)))
        (rows.map (fun r => r.examination_date))) with
    | error e =>
      rw [h2] at h
      have h' : (Except.error e : Except Unit (List ARow)) = .ok out := h
      exact absurd h' (by simp)
    | ok ages =>
      rw [h2] at h
      have h' : (Except.ok (List.zipWith mkARow rows ages) :
          Except Unit (List ARow)) = .ok out := h
      cases h'
      have hlen2 : ages.length = rows.length := by
        rw [compute_ages_ok_length h2, List.length_zip, ffillValues_length,
          List.length_map, List.length_map, Nat.min_self]
      have hQ := compute_ages_ok_forall₂ h2
      rw [← zipWith_mkARow_map_age rows ages hlen2] at hQ
      exact (@List.forall₂_map_right_iff (Value × Value) Value ARow
        (fun p a => compute_age_at_exam p.1 p.2 = Except.ok a)
        ARow.age _ _).mp hQ
  · intro b e h
    unfold compute_age_at_exam
    have hc : (truthyV b && truthyV e) = false := by
      rcases h with h | h <;> simp [h]
    rw [if_neg (by simp [hc])]
  · intro bs es y1 y2 h1 h2
    have hb : bs ≠ [] := by
      intro hnil
      rw [hnil] at h1
      exact absurd h1 (by simp [parseYearOnly])
    have he : es ≠ [] := by
      intro hnil
      rw [hnil] at h2
      exact absurd h2 (by simp [parseExamYear, List.splitOn])
    unfold compute_age_at_exam
    rw [if_pos (by simp [truthyV, List.isEmpty_iff, hb, he])]
    show (match parseYearOnly bs, parseExamYear es with
      | some y1, some y2 => Except.ok (Value.i (y2 - y1))
      | _, _ => .error ()) = .ok (.i (y2 - y1))
    rw [h1, h2]

/-- A two-row table whose subjects have two distinct birth years. -/
def w4rows : List MRow :=
  [⟨none, .s "01/01/2024".toList, .s "/2000".toList, .na, []⟩,
   ⟨none, .s "01/01/2026".toList, .s "/2001".toList, .na, []⟩]

/-- The output of `_set_age_from_birth` on `w4rows`: every age missing. -/
def w4out : List ARow :=
  [⟨none, .s "01/01/2024".toList, .na, .na, []⟩,
   ⟨none, .s "01/01/2026".toList, .na, .na, []⟩]

/-- C4 witness: the multi-valued-birth branch at the concrete table
`w4rows`, and the year-subtraction branch at the spec's calibration input
(`"/2000"` with `"01/01/2024"` gives 24). -/
theorem c4_witness :
    (w4out.head?.map ARow.age = some Value.na)
    ∧ compute_age_at_exam (.s "/2000".toList) (.s "01/01/2024".toList) =
        .ok (.i 24) := by
  constructor
  · have h := c4_age_derivation_amended.1 w4rows w4out (by rfl) (by decide)
      (⟨none, .s "01/01/2026".toList, .na, .na, []⟩ : ARow) (by decide)
    have h0 := c4_age_derivation_amended.1 w4rows w4out (by rfl) (by decide)
      (⟨none, .s "01/01/2024".toList, .na, .na, []⟩ : ARow) (by decide)
    simp [w4out, h0]
  · have h := c4_age_derivation_amended.2.2.2 "/2000".toList "01/01/2024".toList
      2000 2024 (by rfl) (by rfl)
    have e : (2024 - 2000 : Int) = 24 := by decide
    rw [e] at h
    exact h

/- ----------------------------------------------------------------
Row-level normalization of `create_sessions_tsv_file` (clinical.py lines
263-278): `replace([-4, "-4", np.nan], None)`, diagnosis mapping, exam
date completion, age derivation, `dropna(subset=["session_id"])` and
`fillna("n/a")`, in that order.
---------------------------------------------------------------- -/

/-- The elementwise effect of `sessions.replace([-4, "-4", np.nan], None)`:
the numeric sentinel (int or float), the string sentinel and the missing
cell all become the missing cell. -/
def replaceSentinelV (v : Value) : Value :=
  if v = .i (-4) ∨ v = .f (-4) ∨ v = .s minus4 then .na else v

/-- The same `replace` on the `session_id` column, whose cells are `None`
or strings. -/
def replaceSid (sid : Option Str) : Option Str :=
  match sid with
  | some l => if l = minus4 then none else some l
  | none => none

/-- A cell equal to the sentinel, as the number `-4` or the string `"-4"`. -/
def isSentinelV (v : Value) : Bool :=
  valueEqIntB v (-4) || (v == Value.s minus4)

/-- The `replace` step applied to a whole session row. -/
def replaceRow (r : MRow) : MRow :=
  ⟨replaceSid r.session_id, replaceSentinelV r.examination_date,
   replaceSentinelV r.date_of_birth, replaceSentinelV r.diagnosis,
   r.other.map replaceSentinelV⟩

/-- `sessions["diagnosis"] = sessions.diagnosis.apply(_map_diagnosis)`. -/
def diagRow (r : MRow) : MRow :=
  { r with diagnosis := .s (map_diagnosis r.diagnosis) }

/-- The row-wise `_complete_examination_dates` application. -/
def examRow (rid : Int) (fs : AltFS) (r : MRow) : MRow :=
  { r with examination_date :=
      complete_examination_dates rid fs r.session_id r.examination_date }

/-- The three per-row normalization steps before age derivation, in source
order: sentinel replacement, diagnosis mapping, exam-date completion. -/
def normalizeRow (rid : Int) (fs : AltFS) (r : MRow) : MRow :=
  examRow rid fs (diagRow (replaceRow r))

/-- The elementwise effect of the final `fillna("n/a")`. -/
def fillV (v : Value) : Value :=
  if v = .na then .s naChars else v

/-- `fillna("n/a")` on a whole output row.  It runs after
`dropna(subset=["session_id"])`, so the `session_id` cell is never missing
at this point and is left untouched. -/
def fillRow (r : ARow) : ARow :=
  ⟨r.session_id, fillV r.examination_date, fillV r.age, fillV r.diagnosis,
   r.other.map fillV⟩

/-- The predicate of `dropna(subset=["session_id"])`: keep the rows whose
session id is present. -/
def keepRowB (r : ARow) : Bool := r.session_id.isSome

/-- The row-level normalization pipeline of `create_sessions_tsv_file` for
one subject, from the merged dataframe to the rows written to
`<bids_id>_sessions.tsv`: replace sentinels, map the diagnosis, complete
the exam dates, derive age (which may raise on unparseable dates), drop
the rows with no session id, fill the remaining missing cells. -/
def create_sessions_rows (rid : Int) (fs : AltFS) (rows : List MRow) :
    Except Unit (List ARow) :=
  match set_age_from_birth (rows.map (normalizeRow rid fs)) with
  | .ok aged => .ok ((aged.filter keepRowB).map fillRow)
  | .error e => .error e

/-- Helper: `fillna` leaves a string cell unchanged. -/
theorem fillV_s (l : Str) : fillV (.s l) = .s l := by
  simp [fillV]

/-- Helper: filtering both sides of a pointwise relation with predicates
that agree across the relation preserves the relation. -/
theorem forall₂_filter_congr {α β : Type} (R : α → β → Prop)
    (p : α → Bool) (q : β → Bool) (hpq : ∀ a b, R a b → p a = q b) :
    ∀ {l₁ : List α} {l₂ : List β}, List.Forall₂ R l₁ l₂ →
    List.Forall₂ R (l₁.filter p) (l₂.filter q) := by
  intro l₁ l₂ h
  induction h with
  | nil => exact List.Forall₂.nil
  | @cons a b t₁ t₂ hab htail ih =>
    rw [List.filter_cons, List.filter_cons, hpq a b hab]
    by_cases hq : q b = true
    · rw [if_pos hq, if_pos hq]
      exact List.Forall₂.cons hab ih
    · rw [if_neg hq, if_neg hq]
      exact ih

/-- Helper: every member of the right list of a pointwise relation has a
related member on the left. -/
theorem forall₂_exists_of_mem_right {α β : Type} {R : α → β → Prop} :
    ∀ {l₁ : List α} {l₂ : List β}, List.Forall₂ R l₁ l₂ →
    ∀ b ∈ l₂, ∃ a ∈ l₁, R a b := by
  intro l₁ l₂ h
  induction h with
  | nil => intro b hb; exact absurd hb (by simp)
  | @cons a b t₁ t₂ hab htail ih =>
    intro c hc
    rcases List.mem_cons.mp hc with rfl | hc
    · exact ⟨a, by simp, hab⟩
    · obtain ⟨x, hx, hr⟩ := ih c hc
      exact ⟨x, by simp [hx], hr⟩

/-- Helper: characterization of the sessions pipeline on the columns other
than age: a successful run emits, in order, exactly the input rows whose
(replaced) session id is present; the emitted session id is the replaced
one, the emitted diagnosis is the mapped replaced code, the emitted exam
date is the completed replaced date (filled), and every remaining cell is
its replaced, filled value. -/
theorem create_sessions_rows_spec {rid : Int} {fs : AltFS} {rows : List MRow}
    {out : List ARow} (h : create_sessions_rows rid fs rows = .ok out) :
    List.Forall₂ (fun (r : MRow) (r' : ARow) =>
      r'.session_id = replaceSid r.session_id
      ∧ r'.diagnosis = Value.s (map_diagnosis (replaceSentinelV r.diagnosis))
      ∧ r'.examination_date = fillV (complete_examination_dates rid fs
          (replaceSid r.session_id) (replaceSentinelV r.examination_date))
      ∧ r'.other = (r.other.map replaceSentinelV).map fillV)
      (rows.filter (fun r => (replaceSid r.session_id).isSome)) out := by
  unfold create_sessions_rows at h
  cases hsa : set_age_from_birth (rows.map (normalizeRow rid fs)) with
  | error e =>
    rw [hsa] at h
    have h' : (Except.error e : Except Unit (List ARow)) = .ok out := h
    exact absurd h' (by simp)
  | ok aged =>
    rw [hsa] at h
    have h' : (Except.ok ((aged.filter keepRowB).map fillRow) :
        Except Unit (List ARow)) = .ok out := h
    cases h'
    have hpres := set_age_from_birth_preserves hsa
    have hpres2 := List.forall₂_map_left_iff.mp hpres
    have hfil := forall₂_filter_congr _
      (fun r => (replaceSid r.session_id).isSome) keepRowB
      (fun a b hab => by
        have h1 : b.session_id = replaceSid a.session_id := hab.1
        simp [keepRowB, h1]) hpres2
    rw [List.forall₂_map_right_iff]
    refine hfil.imp (fun a b hab => ?_)
    obtain ⟨h1, h2, h3, h4⟩ := hab
    refine ⟨h1, ?_, ?_, ?_⟩
    · show fillV b.diagnosis = _
      rw [h3]
      exact fillV_s _
    · show fillV b.examination_date = _
      rw [h2]
      rfl
    · show b.other.map fillV = _
      rw [h4]
      rfl

/-- C7: in the emitted per-subject sessions table, every row whose session
id is missing is dropped before emission — the emitted rows are exactly
(same count, same order) the rows with a present session id, and no
emitted row has a missing session id. -/
theorem c7_sessions_drop_null_session (rid : Int) (fs : AltFS)
    (rows : List MRow) (out : List ARow)
    (h : create_sessions_rows rid fs rows = .ok out) :
    (∀ r' ∈ out, (r'.session_id).isSome = true)
    ∧ out.length =
        (rows.filter (fun r => (replaceSid r.session_id).isSome)).length := by
  have hc := create_sessions_rows_spec h
  constructor
  · intro r' hr
    obtain ⟨a, ha, hrel⟩ := forall₂_exists_of_mem_right hc r' hr
    have hk : ((fun r => (replaceSid r.session_id).isSome) a) = true :=
      (List.mem_filter.mp ha).2
    rw [hrel.1]
    exact hk
  · exact hc.length_eq.symm

/-- A concrete merged sessions table: the second row has no session id
(its visit code resolved to no known session). -/
def w7rows : List MRow :=
  [⟨some "ses-M000".toList, .s "01/01/2001".toList, .s "/1901".toList, .i 1, []⟩,
   ⟨none, .s "01/01/2002".toList, .na, .i 2, []⟩]

/-- The emitted rows for `w7rows`: the null-session row is gone. -/
def w7out : List ARow :=
  [⟨some "ses-M000".toList, .s "01/01/2001".toList, .i 100, .s "CN".toList, []⟩]

/-- C7 witness: the drop property at the concrete run on `w7rows`. -/
theorem c7_witness :
    ((⟨some "ses-M000".toList, .s "01/01/2001".toList, .i 100,
        .s "CN".toList, []⟩ : ARow).session_id).isSome = true
    ∧ w7out.length =
        (w7rows.filter (fun r => (replaceSid r.session_id).isSome)).length :=
  ⟨(c7_sessions_drop_null_session 1 emptyAltFS w7rows w7out (by rfl)).1
      ⟨some "ses-M000".toList, .s "01/01/2001".toList, .i 100,
        .s "CN".toList, []⟩ (by decide),
   (c7_sessions_drop_null_session 1 emptyAltFS w7rows w7out (by rfl)).2⟩

/-- C2 counterexample: in the participants table, a cell holding the
string `"-4"` is emitted unchanged — `replace(-4, "n/a")` only matches the
number `-4` — so the claim that the string form of the sentinel is also
normalized in every output table is false. -/
theorem c2_counterexample :
    emitted_participant_value false false (.s minus4) = .s minus4
    ∧ Value.s minus4 ≠ Value.s naChars := by
  exact ⟨rfl, by decide⟩

/-- C2 amended: in the participants table only the numeric sentinel `-4`
(int or float) is replaced by `"n/a"`; string cells, including `"-4"`,
pass through unchanged.  In the sessions table both the numeric and the
string sentinel are normalized: such a cell becomes `"n/a"` after the
replace and fill steps, a sentinel diagnosis code maps to `"n/a"`, and in
the emitted rows every cell of the columns not overwritten by a derivation
(the non-special columns) is its replaced, filled value — a sentinel cell
there is emitted as `"n/a"` (the examination-date column is excepted: its
sentinel becomes missing before derivation and may then be filled in by
the fallback search). -/
theorem c2_sentinel_amended :
    (∀ v : Value, valueEqIntB v (-4) = true →
      participants_replace_value v = .s naChars)
    ∧ (∀ l : Str, participants_replace_value (.s l) = .s l)
    ∧ (∀ v : Value, isSentinelV v = true →
        fillV (replaceSentinelV v) = .s naChars)
    ∧ (∀ v : Value, isSentinelV v = true →
        map_diagnosis (replaceSentinelV v) = naChars)
    ∧ (∀ (rid : Int) (fs : AltFS) (rows : List MRow) (out : List ARow),
        create_sessions_rows rid fs rows = .ok out →
        List.Forall₂ (fun (r : MRow) (r' : ARow) =>
            r'.other = (r.other.map replaceSentinelV).map fillV)
          (rows.filter (fun r => (replaceSid r.session_id).isSome)) out) := by
  have hrepl : ∀ v : Value, isSentinelV v = true → replaceSentinelV v = .na := by
    intro v h
    rw [isSentinelV, Bool.or_eq_true] at h
    rcases h with h | h
    · cases v with
      | i m =>
        have : m = -4 := by simpa [valueEqIntB] using h
        subst this
        rfl
      | f m =>
        have : m = -4 := by simpa [valueEqIntB] using h
        subst this
        rfl
      | s l => simp [valueEqIntB] at h
      | na => simp [valueEqIntB] at h
    · have : v = .s minus4 := eq_of_beq h
      subst this
      rfl
  refine ⟨fun v h => ?_, fun l => rfl, fun v h => ?_, fun v h => ?_,
    fun rid fs rows out h => ?_⟩
  · unfold participants_replace_value
    rw [if_pos h]
  · rw [hrepl v h]
    rfl
  · rw [hrepl v h]
    rfl
  · exact (create_sessions_rows_spec h).imp (fun a b hab => hab.2.2.2)

/-- A one-row merged sessions table with a sentinel cell in a generic
column. -/
def w2rows : List MRow :=
  [⟨some "ses-M000".toList, .s "01/01/2001".toList, .s "/1901".toList,
    .i 1, [.i (-4), .s minus4, .i 7]⟩]

/-- The emitted rows for `w2rows`: both sentinel forms became `"n/a"`. -/
def w2out : List ARow :=
  [⟨some "ses-M000".toList, .s "01/01/2001".toList, .i 100, .s "CN".toList,
    [.s naChars, .s naChars, .i 7]⟩]

/-- C2 witness: the numeric branch at the float `-4.0`, the sessions
normalization at both sentinel forms, and the pipeline property at the
concrete run on `w2rows`. -/
theorem c2_witness :
    participants_replace_value (.f (-4)) = .s naChars
    ∧ fillV (replaceSentinelV (.s minus4)) = .s naChars
    ∧ fillV (replaceSentinelV (.i (-4))) = .s naChars
    ∧ List.Forall₂ (fun (r : MRow) (r' : ARow) =>
          r'.other = (r.other.map replaceSentinelV).map fillV)
        (w2rows.filter (fun r => (replaceSid r.session_id).isSome)) w2out :=
  ⟨c2_sentinel_amended.1 (.f (-4)) (by decide),
   c2_sentinel_amended.2.2.1 (.s minus4) (by decide),
   c2_sentinel_amended.2.2.1 (.i (-4)) (by decide),
   c2_sentinel_amended.2.2.2.2 1 emptyAltFS w2rows w2out (by rfl)⟩

/- ----------------------------------------------------------------
Identifier translation (`clinica/iotools/bids_utils.py`, not under src;
only its unit tests are).  Modelled from the spec: one variant per
supported cohort, each with a fixed regular grammar on the native side;
the canonical id is the `sub-` prefixed, separator-stripped native id;
`to_original_study_id` reconstructs the separators the variant requires.
The per-study grammars are calibrated by the passing and failing examples
of the unit tests under src (test_bids_utils.py).
---------------------------------------------------------------- -/

/-- The supported study cohorts of `bids_id_factory`. -/
inductive StudyName where
  | ADNI
  | NIFD
  | AIBL
  | UKB
  | GENFI
  | OASIS3
  | HABS
  | OASIS
  | IXI
deriving DecidableEq, Repr

/-- Modelled from the spec: the ADNI native grammar `DDD_S_DDDD`. -/
def validateADNI : Str → Bool
  | [a, b, c, u1, s1, u2, d, e, f, g] =>
      a.isDigit && b.isDigit && c.isDigit && (u1 == '_') && (s1 == 'S')
        && (u2 == '_') && d.isDigit && e.isDigit && f.isDigit && g.isDigit
  | _ => false

/-- Modelled from the spec: the NIFD native grammar `D_S_DDDD`. -/
def validateNIFD : Str → Bool
  | [a, u1, s1, u2, d, e, f, g] =>
      a.isDigit && (u1 == '_') && (s1 == 'S') && (u2 == '_')
        && d.isDigit && e.isDigit && f.isDigit && g.isDigit
  | _ => false

/-- Modelled from the spec: the AIBL native grammar, digits only. -/
def validateAIBL (l : Str) : Bool := l.all Char.isDigit

/-- Modelled from the spec: the UKB native grammar, digits only. -/
def validateUKB (l : Str) : Bool := l.all Char.isDigit

/-- Modelled from the spec: the GENFI native grammar, a nonempty
alphanumeric word. -/
def validateGENFI (l : Str) : Bool := !l.isEmpty && l.all Char.isAlphanum

/-- Modelled from the spec: the OASIS3 native grammar `OAS3DDDD`. -/
def validateOASIS3 : Str → Bool
  | [o, a, s1, t, d1, d2, d3, d4] =>
      (o == 'O') && (a == 'A') && (s1 == 'S') && (t == '3')
        && d1.isDigit && d2.isDigit && d3.isDigit && d4.isDigit
  | _ => false

/-- Modelled from the spec: the HABS native grammar `P_` followed by a
nonempty alphanumeric word. -/
def validateHABS : Str → Bool
  | p :: u :: rest =>
      (p == 'P') && (u == '_') && !rest.isEmpty && rest.all Char.isAlphanum
  | _ => false

/-- Modelled from the spec: the OASIS(1) native grammar `OAS1_DDDD_MRD`
(the session digit after `MR` is any digit: the unit tests feed
`OAS1_0004_MR2` through the converter without an error). -/
def validateOASIS : Str → Bool
  | [o, a, s1, one, u1, d1, d2, d3, d4, u2, m, r, d5] =>
      (o == 'O') && (a == 'A') && (s1 == 'S') && (one == '1') && (u1 == '_')
        && d1.isDigit && d2.isDigit && d3.isDigit && d4.isDigit
        && (u2 == '_') && (m == 'M') && (r == 'R') && d5.isDigit
  | _ => false

/-- Modelled from the spec: the IXI native grammar `IXIDDD`. -/
def validateIXI : Str → Bool
  | [i1, i2, i3, a, b, c] =>
      (i1 == 'I') && (i2 == 'X') && (i3 == 'I')
        && a.isDigit && b.isDigit && c.isDigit
  | _ => false

/-- The native grammar of each study. -/
def validateStudyId : StudyName → Str → Bool
  | .ADNI => validateADNI
  | .NIFD => validateNIFD
  | .AIBL => validateAIBL
  | .UKB => validateUKB
  | .GENFI => validateGENFI
  | .OASIS3 => validateOASIS3
  | .HABS => validateHABS
  | .OASIS => validateOASIS
  | .IXI => validateIXI

/-- `study_id.replace("_", "")`: drop the underscore separators. -/
def stripUnderscores (l : Str) : Str := l.filter (fun c => !(c == '_'))

/-- Modelled from the spec: the canonical cohort identifier built from a
valid native id — the `sub-` prefix, the cohort tag where the native id
does not already carry it, and the separator-stripped native id (for
OASIS(1), the four subject digits only: the `_MRD` session suffix is
dropped, per the canonical ids of the unit tests, e.g. `sub-OASIS10001`). -/
def canonicalOf : StudyName → Str → Str
  | .ADNI, l => "sub-ADNI".toList ++ stripUnderscores l
  | .NIFD, l => "sub-NIFD".toList ++ stripUnderscores l
  | .AIBL, l => "sub-AIBL".toList ++ l
  | .UKB, l => "sub-UKB".toList ++ l
  | .GENFI, l => "sub-".toList ++ l
  | .OASIS3, l => "sub-".toList ++ l
  | .HABS, l => "sub-HABS".toList ++ l.drop 2
  | .OASIS, l => "sub-OASIS1".toList ++ (l.drop 5).take 4
  | .IXI, l => "sub-".toList ++ l

/-- Modelled from the spec: `from_original_study_id` validates the native
id against the study grammar and fails fast (`InvalidIdentifierFormat`,
a `ValueError` in the source tests) on a mismatch, otherwise builds the
canonical id. -/
def from_original_study_id (study : StudyName) (l : Str) : Except Unit Str :=
  if validateStudyId study l then .ok (canonicalOf study l) else .error ()

/-- ADNI canonical back to native: reinsert `_S_` around the site digits. -/
def toOriginalADNI (c : Str) : Str :=
  match c.drop 8 with
  | x :: y :: z :: _ :: rest => x :: y :: z :: '_' :: 'S' :: '_' :: rest
  | l => l

/-- NIFD canonical back to native: reinsert `_S_`. -/
def toOriginalNIFD (c : Str) : Str :=
  match c.drop 8 with
  | x :: _ :: rest => x :: '_' :: 'S' :: '_' :: rest
  | l => l

/-- Modelled from the spec: `to_original_study_id` reconstructs the native
id from the canonical one, reinserting the separators the variant requires;
for OASIS(1) the session suffix is always rebuilt as `_MR1`. -/
def to_original_study_id : StudyName → Str → Str
  | .ADNI => toOriginalADNI
  | .NIFD => toOriginalNIFD
  | .AIBL => fun c => c.drop 8
  | .UKB => fun c => c.drop 7
  | .GENFI => fun c => c.drop 4
  | .OASIS3 => fun c => c.drop 4
  | .HABS => fun c => 'P' :: '_' :: c.drop 8
  | .OASIS => fun c => "OAS1_".toList ++ c.drop 10 ++ "_MR1".toList
  | .IXI => fun c => c.drop 4

/-- Helper: a digit character is not an underscore. -/
theorem digit_beq_underscore {c : Char} (h : c.isDigit = true) :
    (c == '_') = false := by
  cases hc : c == '_' with
  | false => rfl
  | true =>
    have hcu : c = '_' := eq_of_beq hc
    subst hcu
    exact absurd h (by decide)

/-- Helper: stripping keeps a non-underscore character. -/
theorem strip_cons_of_ne {c : Char} (h : (c == '_') = false) (l : Str) :
    stripUnderscores (c :: l) = c :: stripUnderscores l := by
  simp [stripUnderscores, List.filter_cons, h]

/-- Helper: stripping keeps a digit. -/
theorem strip_cons_of_digit {c : Char} (h : c.isDigit = true) (l : Str) :
    stripUnderscores (c :: l) = c :: stripUnderscores l :=
  strip_cons_of_ne (digit_beq_underscore h) l

/-- Helper: stripping drops an underscore. -/
theorem strip_cons_underscore (l : Str) :
    stripUnderscores ('_' :: l) = stripUnderscores l := by
  simp [stripUnderscores, List.filter_cons]

/-- Helper: translation round-trips on every ADNI id of the grammar. -/
theorem roundtripADNI (l : Str) (h : validateADNI l = true) :
    (from_original_study_id .ADNI l).map (to_original_study_id .ADNI) =
      .ok l := by
  rcases l with _ | ⟨a, _ | ⟨b, _ | ⟨c, _ | ⟨u1, _ | ⟨s1, _ | ⟨u2, _ | ⟨d,
    _ | ⟨e, _ | ⟨f, _ | ⟨g, _ | ⟨x, rest⟩⟩⟩⟩⟩⟩⟩⟩⟩⟩⟩
  all_goals try exact absurd h Bool.false_ne_true
  have h' : (a.isDigit && b.isDigit && c.isDigit && (u1 == '_') && (s1 == 'S')
      && (u2 == '_') && d.isDigit && e.isDigit && f.isDigit && g.isDigit)
      = true := h
  simp only [Bool.and_eq_true, beq_iff_eq] at h'
  obtain ⟨⟨⟨⟨⟨⟨⟨⟨⟨ha, hb⟩, hc⟩, hu1⟩, hs1⟩, hu2⟩, hd⟩, he⟩, hf⟩, hg⟩ := h'
  subst hu1
  subst hs1
  subst hu2
  have hval : validateStudyId .ADNI [a, b, c, '_', 'S', '_', d, e, f, g]
      = true := h
  unfold from_original_study_id
  rw [if_pos hval]
  show Except.ok (to_original_study_id .ADNI ("sub-ADNI".toList
      ++ stripUnderscores [a, b, c, '_', 'S', '_', d, e, f, g]))
    = Except.ok [a, b, c, '_', 'S', '_', d, e, f, g]
  rw [strip_cons_of_digit ha, strip_cons_of_digit hb, strip_cons_of_digit hc,
    strip_cons_underscore, strip_cons_of_ne (by decide), strip_cons_underscore,
    strip_cons_of_digit hd, strip_cons_of_digit he, strip_cons_of_digit hf,
    strip_cons_of_digit hg]
  rfl

/-- Helper: translation round-trips on every NIFD id of the grammar. -/
theorem roundtripNIFD (l : Str) (h : validateNIFD l = true) :
    (from_original_study_id .NIFD l).map (to_original_study_id .NIFD) =
      .ok l := by
  rcases l with _ | ⟨a, _ | ⟨u1, _ | ⟨s1, _ | ⟨u2, _ | ⟨d, _ | ⟨e, _ | ⟨f,
    _ | ⟨g, _ | ⟨x, rest⟩⟩⟩⟩⟩⟩⟩⟩⟩
  all_goals try exact absurd h Bool.false_ne_true
  have h' : (a.isDigit && (u1 == '_') && (s1 == 'S') && (u2 == '_')
      && d.isDigit && e.isDigit && f.isDigit && g.isDigit) = true := h
  simp only [Bool.and_eq_true, beq_iff_eq] at h'
  obtain ⟨⟨⟨⟨⟨⟨⟨ha, hu1⟩, hs1⟩, hu2⟩, hd⟩, he⟩, hf⟩, hg⟩ := h'
  subst hu1
  subst hs1
  subst hu2
  have hval : validateStudyId .NIFD [a, '_', 'S', '_', d, e, f, g] = true := h
  unfold from_original_study_id
  rw [if_pos hval]
  show Except.ok (to_original_study_id .NIFD ("sub-NIFD".toList
      ++ stripUnderscores [a, '_', 'S', '_', d, e, f, g]))
    = Except.ok [a, '_', 'S', '_', d, e, f, g]
  rw [strip_cons_of_digit ha, strip_cons_underscore,
    strip_cons_of_ne (by decide), strip_cons_underscore,
    strip_cons_of_digit hd, strip_cons_of_digit he, strip_cons_of_digit hf,
    strip_cons_of_digit hg]
  rfl

/-- Helper: translation round-trips on every AIBL id of the grammar. -/
theorem roundtripAIBL (l : Str) (h : validateAIBL l = true) :
    (from_original_study_id .AIBL l).map (to_original_study_id .AIBL) =
      .ok l := by
  have hval : validateStudyId .AIBL l = true := h
  unfold from_original_study_id
  rw [if_pos hval]
  rfl

/-- Helper: translation round-trips on every UKB id of the grammar. -/
theorem roundtripUKB (l : Str) (h : validateUKB l = true) :
    (from_original_study_id .UKB l).map (to_original_study_id .UKB) =
      .ok l := by
  have hval : validateStudyId .UKB l = true := h
  unfold from_original_study_id
  rw [if_pos hval]
  rfl

/-- Helper: translation round-trips on every GENFI id of the grammar. -/
theorem roundtripGENFI (l : Str) (h : validateGENFI l = true) :
    (from_original_study_id .GENFI l).map (to_original_study_id .GENFI) =
      .ok l := by
  have hval : validateStudyId .GENFI l = true := h
  unfold from_original_study_id
  rw [if_pos hval]
  rfl

/-- Helper: translation round-trips on every OASIS3 id of the grammar. -/
theorem roundtripOASIS3 (l : Str) (h : validateOASIS3 l = true) :
    (from_original_study_id .OASIS3 l).map (to_original_study_id .OASIS3) =
      .ok l := by
  have hval : validateStudyId .OASIS3 l = true := h
  unfold from_original_study_id
  rw [if_pos hval]
  rfl

/-- Helper: translation round-trips on every IXI id of the grammar. -/
theorem roundtripIXI (l : Str) (h : validateIXI l = true) :
    (from_original_study_id .IXI l).map (to_original_study_id .IXI) =
      .ok l := by
  have hval : validateStudyId .IXI l = true := h
  unfold from_original_study_id
  rw [if_pos hval]
  rfl

/-- Helper: translation round-trips on every HABS id of the grammar. -/
theorem roundtripHABS (l : Str) (h : validateHABS l = true) :
    (from_original_study_id .HABS l).map (to_original_study_id .HABS) =
      .ok l := by
  rcases l with _ | ⟨p, _ | ⟨u, rest⟩⟩
  all_goals try exact absurd h Bool.false_ne_true
  have h' : ((p == 'P') && (u == '_') && !rest.isEmpty
      && rest.all Char.isAlphanum) = true := h
  simp only [Bool.and_eq_true, beq_iff_eq] at h'
  obtain ⟨⟨⟨hp, hu⟩, _⟩, _⟩ := h'
  subst hp
  subst hu
  have hval : validateStudyId .HABS ('P' :: '_' :: rest) = true := h
  unfold from_original_study_id
  rw [if_pos hval]
  rfl

/-- Helper: translation round-trips on every OASIS(1) id of the grammar
whose trailing session digit is `1`. -/
theorem roundtripOASIS (l : Str) (h : validateOASIS l = true)
    (hlast : l.getLast? = some '1') :
    (from_original_study_id .OASIS l).map (to_original_study_id .OASIS) =
      .ok l := by
  rcases l with _ | ⟨o, _ | ⟨a, _ | ⟨s1, _ | ⟨one, _ | ⟨u1, _ | ⟨d1, _ | ⟨d2,
    _ | ⟨d3, _ | ⟨d4, _ | ⟨u2, _ | ⟨m, _ | ⟨r, _ | ⟨d5, _ | ⟨x, rest⟩⟩⟩⟩⟩⟩⟩⟩⟩⟩⟩⟩⟩⟩
  all_goals try exact absurd h Bool.false_ne_true
  have h' : ((o == 'O') && (a == 'A') && (s1 == 'S') && (one == '1')
      && (u1 == '_') && d1.isDigit && d2.isDigit && d3.isDigit && d4.isDigit
      && (u2 == '_') && (m == 'M') && (r == 'R') && d5.isDigit) = true := h
  simp only [Bool.and_eq_true, beq_iff_eq] at h'
  obtain ⟨⟨⟨⟨⟨⟨⟨⟨⟨⟨⟨⟨ho, ha⟩, hs⟩, hone⟩, hu1⟩, hd1⟩, hd2⟩, hd3⟩, hd4⟩,
    hu2⟩, hm⟩, hr⟩, hd5⟩ := h'
  subst ho
  subst ha
  subst hs
  subst hone
  subst hu1
  subst hu2
  subst hm
  subst hr
  have h5 : (some d5 : Option Char) = some '1' := hlast
  injection h5 with h5
  subst h5
  have hval : validateStudyId .OASIS
      ['O', 'A', 'S', '1', '_', d1, d2, d3, d4, '_', 'M', 'R', '1']
      = true := h
  unfold from_original_study_id
  rw [if_pos hval]
  rfl

/-- C1 counterexample: the OASIS native id `OAS1_0001_MR2` is accepted by
the study grammar, but translating it to the canonical id and back yields
`OAS1_0001_MR1` — `to_original_study_id` always rebuilds the `_MR1`
session suffix — so the round-trip claim over every accepted native id is
false. -/
theorem c1_counterexample :
    validateStudyId .OASIS "OAS1_0001_MR2".toList = true
    ∧ (from_original_study_id .OASIS "OAS1_0001_MR2".toList).map
        (to_original_study_id .OASIS) = .ok "OAS1_0001_MR1".toList
    ∧ "OAS1_0001_MR1".toList ≠ "OAS1_0001_MR2".toList :=
  ⟨by decide, rfl, by decide⟩

/-- C1 amended: for every supported study other than OASIS(1), translating
a native id accepted by the study grammar to the canonical cohort id and
back returns the original native id; for OASIS(1) the round-trip holds
exactly when the native id's trailing session digit is `1`, since the
back-translation always rebuilds `_MR1`; and for every native id rejected
by the study grammar, `from_original_study_id` fails fast with the
invalid-identifier-format error instead of returning a truncated id. -/
theorem c1_roundtrip_amended :
    (∀ (study : StudyName) (l : Str), study ≠ StudyName.OASIS →
      validateStudyId study l = true →
      (from_original_study_id study l).map (to_original_study_id study) =
        .ok l)
    ∧ (∀ l : Str, validateStudyId StudyName.OASIS l = true →
        l.getLast? = some '1' →
        (from_original_study_id .OASIS l).map (to_original_study_id .OASIS) =
          .ok l)
    ∧ (∀ (study : StudyName) (l : Str), validateStudyId study l = false →
        from_original_study_id study l = .error ()) := by
  refine ⟨fun study l hne h => ?_, fun l h hlast => roundtripOASIS l h hlast,
    fun study l h => ?_⟩
  · cases study with
    | ADNI => exact roundtripADNI l h
    | NIFD => exact roundtripNIFD l h
    | AIBL => exact roundtripAIBL l h
    | UKB => exact roundtripUKB l h
    | GENFI => exact roundtripGENFI l h
    | OASIS3 => exact roundtripOASIS3 l h
    | HABS => exact roundtripHABS l h
    | OASIS => exact absurd rfl hne
    | IXI => exact roundtripIXI l h
  · unfold from_original_study_id
    rw [if_neg (by simp [h])]

/-- C1 witness: the amended theorem applied at the calibration examples of
the source tests — the ADNI round trip on `001_S_0001`, the OASIS round
trip on `OAS1_0001_MR1`, and the fail-fast error on the malformed AIBL id
`10A`. -/
theorem c1_witness :
    (from_original_study_id .ADNI "001_S_0001".toList).map
        (to_original_study_id .ADNI) = .ok "001_S_0001".toList
    ∧ (from_original_study_id .OASIS "OAS1_0001_MR1".toList).map
        (to_original_study_id .OASIS) = .ok "OAS1_0001_MR1".toList
    ∧ from_original_study_id .AIBL "10A".toList = .error () :=
  ⟨c1_roundtrip_amended.1 .ADNI "001_S_0001".toList (by decide) (by decide),
   c1_roundtrip_amended.2.1 "OAS1_0001_MR1".toList (by decide) (by decide),
   c1_roundtrip_amended.2.2 .AIBL "10A".toList (by decide)⟩
